import Mathlib

/-!
Shallow embedding of
`custom_components/waste_collection_schedule/waste_collection_schedule/source/southlanarkshire_gov_uk.py`
(South Lanarkshire Council waste-collection source).

Calendar dates are modelled as Python `date.toordinal()` values (`Int`);
ordinal 1 is 0001-01-01, a Monday, so Python's `date.weekday()`
(Monday = 0) is `(d - 1) % 7`.  `timedelta(days = n)` is `+ n`,
`timedelta(weeks = k)` is `+ 7 * k`, and comparison / subtraction of
dates is integer comparison / subtraction, exactly as in Python.
-/

/-- Python `date.weekday()`: Monday = 0 … Sunday = 6. -/
def pyWeekday (d : Int) : Int :=
  (d - 1) % 7

/-- Python `needle in hay` on lowercase strings: contiguous-substring test. -/
def pyIn (needle hay : String) : Bool :=
  let n := needle.toList
  let h := hay.toList
  (List.range (h.length + 1)).any (fun i => n.isPrefixOf (h.drop i))

/-- Python `s.split()[0]`: drop leading whitespace, take up to the next
whitespace.  (Python raises `IndexError` when `s` is all whitespace; the
program only applies this to the nonempty bin-type literals below, where
both semantics agree.) -/
def pyFirstWord (s : String) : String :=
  let cs := s.toList.dropWhile Char.isWhitespace
  String.mk (cs.takeWhile (fun c => !c.isWhitespace))

/-- Python `str(record_id).zfill(6)` for the unsigned strings used here. -/
def pyZfill (s : String) (w : Nat) : String :=
  if w ≤ s.length then s else String.mk (List.replicate (w - s.length) '0') ++ s

/-- Python `sorted(...)` on a list of dates (total order on `Int`, so any
correct sort, stable or not, returns the same list). -/
def pySortedInts (l : List Int) : List Int :=
  List.insertionSort (fun a b => a ≤ b) l

/-- Python `min(xs, key = f)`: first element with the minimal key
(`min` only replaces the current best on a strictly smaller key). -/
def pyMinBy (f : Int → Int) : List Int → Option Int
  | [] => none
  | x :: xs => some (xs.foldl (fun acc d => if f d < f acc then d else acc) x)

/-- The `ICON_MAP` module-level dict. -/
def iconMap (c : String) : Option String :=
  if c = "Black" then some "mdi:trash-can"
  else if c = "Green" then some "mdi:trash-can"
  else if c = "Burgundy" then some "mdi:leaf"
  else if c = "Blue" then some "mdi:file-document-outline"
  else if c = "Light" then some "mdi:glass-fragile"
  else none

/-- The `SORT_ORDER` module-level dict. -/
def sortOrder (c : String) : Option Nat :=
  if c = "Blue" then some 1
  else if c = "Light" then some 2
  else if c = "Burgundy" then some 3
  else if c = "Black" then some 4
  else if c = "Green" then some 4
  else none

/-- Lookup `SORT_ORDER.get(bin_color, 99)`. -/
def sortOrderGet (c : String) : Nat :=
  (sortOrder c).getD 99

/-- The `Collection(date=..., t=..., icon=...)` value emitted by `fetch`. -/
structure Collection where
  date : Int
  t : String
  icon : String
deriving DecidableEq

/-- The distinct failure conditions raised by the embedded code
(the Python code raises `ValueError` / `Exception` with distinct
messages; the interpolated message text is presentation only). -/
inductive FetchError where
  | emptyHistoricalDocument
  | anchorNotFound
  | unknownCollectionDay
deriving DecidableEq

/-- The parsed `Source` configuration (`self._record_id` etc.). -/
structure SourceCfg where
  recordId : String
  streetName : String
  pdfUrl : String
deriving DecidableEq

/-- The `ValueError` message raised by `Source.__init__` when `pdf_url`
is missing (Python concatenates the three adjacent string literals). -/
def pdfUrlRequiredMessage : String :=
  "pdf_url is required to determine collection cycle position. Black bins appear twice in the 4-week cycle, making position impossible to determine without PDF reference. Find PDFs at: https://www.southlanarkshire.gov.uk/downloads/download/791/bin_collection_calendars"

/-- Constructor `Source.__init__`: `pdf_url = none` models the argument not being
supplied at all (Python then raises `TypeError`; an empty string raises
`ValueError` via the explicit `if not pdf_url` guard — either way
construction fails). -/
def sourceInit (recordId streetName : String) (pdfUrl : Option String) :
    Except String SourceCfg :=
  match pdfUrl with
  | none => Except.error pdfUrlRequiredMessage
  | some u =>
      if u = "" then Except.error pdfUrlRequiredMessage
      else Except.ok { recordId := pyZfill recordId 6, streetName := streetName, pdfUrl := u }

/-- Python set `bins.add(x)` on a set represented as a duplicate-free
list (insertion order is never observed: the set is only read through
`any(...)` membership tests). -/
def setAdd (s : List String) (x : String) : List String :=
  if x ∈ s then s else s ++ [x]

/-- First check of the line loop in `_identify_bins_from_pdf_lines`:
`if "black" in line_lower or "green" in line_lower: bins.add("black")`. -/
def addBlack (line : String) (bins : List String) : List String :=
  if pyIn "black" line.toLower || pyIn "green" line.toLower then setAdd bins "black" else bins

/-- Check `if "blue" in line_lower: bins.add("blue")`. -/
def addBlue (line : String) (bins : List String) : List String :=
  if pyIn "blue" line.toLower then setAdd bins "blue" else bins

/-- Check `if "grey" in line_lower or "gray" in line_lower: bins.add("grey")`. -/
def addGrey (line : String) (bins : List String) : List String :=
  if pyIn "grey" line.toLower || pyIn "gray" line.toLower then setAdd bins "grey" else bins

/-- Check `if "burgundy" in line_lower or "brown" in line_lower: bins.add("burgundy")`. -/
def addBurgundy (line : String) (bins : List String) : List String :=
  if pyIn "burgundy" line.toLower || pyIn "brown" line.toLower then setAdd bins "burgundy" else bins

/-- One iteration of the line loop in `_identify_bins_from_pdf_lines`:
lowercase the line (inside each check) and add each matched tag in order. -/
def addBinsFromLine (bins : List String) (line : String) : List String :=
  addBurgundy line (addGrey line (addBlue line (addBlack line bins)))

/-- Method `_identify_bin_combination(bins_set)`: collapse the tag set to one
of the three combination class strings (elements of the set are the
lowercase literals `"black"`, `"blue"`, `"grey"`, `"burgundy"`, so
`str(b).lower()` is `b` itself). -/
def identifyBinCombination (binsSet : List String) : String :=
  let hasBlack := binsSet.any (fun b => pyIn "black" b.toLower || pyIn "green" b.toLower)
  let hasBlue := binsSet.any (fun b => pyIn "blue" b.toLower)
  let hasGrey := binsSet.any (fun b => pyIn "grey" b.toLower || pyIn "gray" b.toLower)
  let hasBurgundy := binsSet.any (fun b => pyIn "burgundy" b.toLower || pyIn "brown" b.toLower)
  if hasBlack then "black"
  else if (hasBlue || hasGrey) && hasBurgundy then
    if hasBlue then "blue+burgundy" else "grey+burgundy"
  else "black"

/-- The window of lines examined by `_identify_bins_from_pdf_lines`:
`range(current_line_idx + 1, min(current_line_idx + 5, len(lines)))`. -/
def pdfLineWindow (lines : List String) (idx : Nat) : List String :=
  (lines.drop (idx + 1)).take 4

/-- The tag set accumulated by the loop of `_identify_bins_from_pdf_lines`. -/
def binsAt (lines : List String) (idx : Nat) : List String :=
  (pdfLineWindow lines idx).foldl addBinsFromLine []

/-- Method `_identify_bins_from_pdf_lines(lines, current_line_idx)`. -/
def identifyBinsFromPdfLines (lines : List String) (idx : Nat) : Option String :=
  let bins := binsAt lines idx
  if bins.isEmpty then none else some (identifyBinCombination bins)

/-- Python dict lookup `pdf_schedule[d]` on the insertion-ordered
association list (dict keys are distinct, so first match is the value). -/
def lookupSched (sched : List (Int × String)) (d : Int) : Option String :=
  List.lookup d sched

/-- The `(first_type, second_type)` pattern match at the end of
`_determine_cycle_position`, including the `return 0` fallback. -/
def classifyCycleRun (cycleFromPdf : List String) : Nat :=
  if 2 ≤ cycleFromPdf.length then
    let firstType := cycleFromPdf.getD 0 ""
    let secondType := cycleFromPdf.getD 1 ""
    if firstType = "black" ∧ secondType = "grey+burgundy" then 0
    else if firstType = "grey+burgundy" ∧ secondType = "black" then 1
    else if firstType = "blue+burgundy" ∧ secondType = "black" then 2
    else if firstType = "black" ∧ secondType = "blue+burgundy" then 3
    else 0
  else 0

/-- Method `_determine_cycle_position(current_week_date, pdf_schedule)`.
The schedule is the dict as an insertion-ordered association list
(`all_dates = list(pdf_schedule.keys())`).  The Python code also binds
`current_week_type = pdf_schedule[pdf_week_date]`, which is never read;
the `if closest in pdf_schedule` guard is the `lookupSched` match. -/
def determineCyclePosition (currentWeekDate : Int) (pdfSchedule : List (Int × String)) :
    Except FetchError Nat :=
  if pdfSchedule.isEmpty then Except.error FetchError.emptyHistoricalDocument
  else
    let allDates := pdfSchedule.map Prod.fst
    let sortedDates := pySortedInts (allDates.filter
      (fun d => decide (currentWeekDate - 60 ≤ d) && decide (d ≤ currentWeekDate + 180)))
    match pyMinBy (fun d => |d - currentWeekDate|) sortedDates with
    | none => Except.error FetchError.anchorNotFound
    | some pdfWeekDate =>
        let cycleFromPdf := (List.range 4).filterMap (fun i =>
          let checkDate := pdfWeekDate + 7 * (i : Int)
          let candidates := allDates.filter (fun d => decide (|d - checkDate| ≤ 7))
          match pyMinBy (fun d => |d - checkDate|) candidates with
          | none => none
          | some closest => lookupSched pdfSchedule closest)
        Except.ok (classifyCycleRun cycleFromPdf)

/-- The `black_bins` list in `_get_pattern_from_cycle_position`. -/
def blackBins : List String :=
  ["Black/Green - Non Recyclable Waste"]

/-- The `blue_burgundy_bins` list. -/
def blueBurgundyBins : List String :=
  ["Blue (paper and card)", "Burgundy - Food and garden"]

/-- The `grey_burgundy_bins` list. -/
def greyBurgundyBins : List String :=
  ["Light Grey - Glass, cans and plastics", "Burgundy - Food and garden"]

/-- The `base_pattern` list. -/
def basePattern : List (List String) :=
  [blackBins, greyBurgundyBins, blackBins, blueBurgundyBins]

/-- Method `_get_pattern_from_cycle_position(position)`:
`base_pattern[position:] + base_pattern[:position]`. -/
def patternFromCyclePosition (position : Nat) : List (List String) :=
  basePattern.drop position ++ basePattern.take position

/-- The parsed page snapshot consumed by the `fetch` pipeline:
the current week's start date, the lowercased `h4` labels of the bins
listed as collected this week (lines 106–112), and the first weekday
name matched in the schedule table (lines 114–131). -/
structure PageSnapshot where
  weekStart : Int
  binsThisWeek : List String
  collectionDay : String
deriving DecidableEq

/-- The `day_map` dict in `fetch`. -/
def dayMap (d : String) : Option Int :=
  if d = "Monday" then some 0
  else if d = "Tuesday" then some 1
  else if d = "Wednesday" then some 2
  else if d = "Thursday" then some 3
  else if d = "Friday" then some 4
  else if d = "Saturday" then some 5
  else if d = "Sunday" then some 6
  else none

/-- The events appended for one `week_offset` of the loop in `fetch`
(`bin_color = bin_type.split()[0]`; `ICON_MAP.get(bin_color, "mdi:trash-can")`).
A `pattern` of length 0 cannot occur in the program (the rotation of the
4-entry base pattern is never empty); the `getD` default keeps the
function total. -/
def weekEvents (currentCollectionDate : Int) (pattern : List (List String)) (weekOffset : Nat) :
    List Collection :=
  (pattern.getD (weekOffset % pattern.length) []).map (fun binType =>
    { date := currentCollectionDate + 7 * (weekOffset : Int)
      t := binType
      icon := (iconMap (pyFirstWord binType)).getD "mdi:trash-can" })

/-- The full 52-week projection loop of `fetch` (before sorting). -/
def projectWeeks (currentCollectionDate : Int) (pattern : List (List String)) :
    List Collection :=
  (List.range 52).flatMap (weekEvents currentCollectionDate pattern)

/-- Binding `bin_color = entry.type.split()[0] if entry.type else ""` in `get_sort_key`. -/
def binColor (e : Collection) : String :=
  if e.t = "" then "" else pyFirstWord e.t

/-- The priority `get_sort_key` assigns to a raw bin-type string. -/
def keyStr (t : String) : Nat :=
  sortOrderGet (if t = "" then "" else pyFirstWord t)

/-- The second component of `get_sort_key(entry)`. -/
def sortKeyOrder (e : Collection) : Nat :=
  sortOrderGet (binColor e)

/-- The comparison induced by `get_sort_key`: lexicographic on
`(entry.date, sort_order)`. -/
def collLe (a b : Collection) : Bool :=
  decide (a.date < b.date) || (decide (a.date = b.date) && decide (sortKeyOrder a ≤ sortKeyOrder b))

/-- Call `collections.sort(key=get_sort_key)`: Python's sort is stable, so it
is the stable merge sort under `collLe`. -/
def sortCollections (l : List Collection) : List Collection :=
  l.mergeSort collLe

/-- The core of `Source.fetch` after page parsing (lines 133–165): weekday
arithmetic, cycle detection from the parsed PDF schedule, 52-week
projection, and the final sort.  `snap.binsThisWeek` is bound (the code
collects `bins_this_week` at lines 106–112) but, like the Python code,
never read afterwards. -/
def fetchCore (snap : PageSnapshot) (pdfSchedule : List (Int × String)) :
    Except FetchError (List Collection) :=
  let _binsThisWeek := snap.binsThisWeek
  match dayMap snap.collectionDay with
  | none => Except.error FetchError.unknownCollectionDay
  | some collectionDayNum =>
      let daysToCollection := (collectionDayNum - pyWeekday snap.weekStart) % 7
      let currentCollectionDate := snap.weekStart + daysToCollection
      match determineCyclePosition snap.weekStart pdfSchedule with
      | Except.error e => Except.error e
      | Except.ok cyclePosition =>
          Except.ok (sortCollections
            (projectWeeks currentCollectionDate (patternFromCyclePosition cyclePosition)))

/-- A concrete page snapshot: week starting on the Monday with ordinal 8,
collection day Friday, blue bin listed as collected this week. -/
def snap0 : PageSnapshot :=
  { weekStart := 8, binsThisWeek := ["blue"], collectionDay := "Friday" }

/-- The same snapshot with a different set of bins listed for this week. -/
def snap0b : PageSnapshot :=
  { weekStart := 8, binsThisWeek := ["black", "burgundy"], collectionDay := "Friday" }

/-- A concrete parsed historical schedule anchored on week 8: a black
week followed by a grey+burgundy week. -/
def sched0 : List (Int × String) :=
  [(8, "black"), (15, "grey+burgundy")]

/-- The projection `fetch` computes for `snap0` / `sched0`
(collection date 12 = Friday of week 8, cycle position 0). -/
def evs0 : List Collection :=
  projectWeeks 12 (patternFromCyclePosition 0)

/-- A parsed historical schedule whose anchor week is a blue+burgundy
week followed by a black week (the run the spec's Scenario B describes). -/
def c1Sched : List (Int × String) :=
  [(1000, "blue+burgundy"), (1007, "black"), (1014, "grey+burgundy"), (1021, "black")]

/-- A non-empty parsed historical schedule whose only entry (ordinal 500)
lies outside the window [940, 1180] around week 1000. -/
def c3Sched : List (Int × String) :=
  [(500, "black")]

/-- A snapshot whose week start is 1000, for use with `c3Sched`. -/
def c3Snap : PageSnapshot :=
  { weekStart := 1000, binsThisWeek := [], collectionDay := "Monday" }

/-! ### Helper lemmas about the tag-set accumulation of the normalizer -/

theorem mem_setAdd {s : List String} {x y : String} :
    y ∈ setAdd s x ↔ y ∈ s ∨ y = x := by
  unfold setAdd
  split_ifs with h
  · constructor
    · exact Or.inl
    · rintro (hy | rfl)
      · exact hy
      · exact h
  · simp [List.mem_append]

theorem setAdd_ne_nil {s : List String} {x : String} : setAdd s x ≠ [] := by
  unfold setAdd
  split_ifs with h
  · intro hnil
    rw [hnil] at h
    exact absurd h (List.not_mem_nil x)
  · simp

theorem mem_addBlack {line : String} {bins : List String} {y : String} :
    y ∈ addBlack line bins ↔
      y ∈ bins ∨ (y = "black" ∧ (pyIn "black" line.toLower || pyIn "green" line.toLower) = true) := by
  unfold addBlack
  split_ifs with h
  · rw [mem_setAdd]
    simp [h]
  · simp [h]

theorem mem_addBlue {line : String} {bins : List String} {y : String} :
    y ∈ addBlue line bins ↔
      y ∈ bins ∨ (y = "blue" ∧ pyIn "blue" line.toLower = true) := by
  unfold addBlue
  split_ifs with h
  · rw [mem_setAdd]
    simp [h]
  · simp [h]

theorem mem_addGrey {line : String} {bins : List String} {y : String} :
    y ∈ addGrey line bins ↔
      y ∈ bins ∨ (y = "grey" ∧ (pyIn "grey" line.toLower || pyIn "gray" line.toLower) = true) := by
  unfold addGrey
  split_ifs with h
  · rw [mem_setAdd]
    simp [h]
  · simp [h]

theorem mem_addBurgundy {line : String} {bins : List String} {y : String} :
    y ∈ addBurgundy line bins ↔
      y ∈ bins ∨ (y = "burgundy" ∧ (pyIn "burgundy" line.toLower || pyIn "brown" line.toLower) = true) := by
  unfold addBurgundy
  split_ifs with h
  · rw [mem_setAdd]
    simp [h]
  · simp [h]

theorem mem_addBinsFromLine {bins : List String} {line : String} {y : String} :
    y ∈ addBinsFromLine bins line ↔
      y ∈ bins
      ∨ (y = "black" ∧ (pyIn "black" line.toLower || pyIn "green" line.toLower) = true)
      ∨ (y = "blue" ∧ pyIn "blue" line.toLower = true)
      ∨ (y = "grey" ∧ (pyIn "grey" line.toLower || pyIn "gray" line.toLower) = true)
      ∨ (y = "burgundy" ∧ (pyIn "burgundy" line.toLower || pyIn "brown" line.toLower) = true) := by
  unfold addBinsFromLine
  rw [mem_addBurgundy, mem_addGrey, mem_addBlue, mem_addBlack]
  tauto

theorem addBlack_eq_nil {line : String} {bins : List String} :
    addBlack line bins = [] ↔
      bins = [] ∧ (pyIn "black" line.toLower || pyIn "green" line.toLower) = false := by
  unfold addBlack
  split_ifs with h
  · simp [setAdd_ne_nil, h]
  · have hf : (pyIn "black" line.toLower || pyIn "green" line.toLower) = false := by
      simpa using h
    simp [hf]

theorem addBlue_eq_nil {line : String} {bins : List String} :
    addBlue line bins = [] ↔ bins = [] ∧ pyIn "blue" line.toLower = false := by
  unfold addBlue
  split_ifs with h
  · simp [setAdd_ne_nil, h]
  · have hf : pyIn "blue" line.toLower = false := by
      simpa using h
    simp [hf]

theorem addGrey_eq_nil {line : String} {bins : List String} :
    addGrey line bins = [] ↔
      bins = [] ∧ (pyIn "grey" line.toLower || pyIn "gray" line.toLower) = false := by
  unfold addGrey
  split_ifs with h
  · simp [setAdd_ne_nil, h]
  · have hf : (pyIn "grey" line.toLower || pyIn "gray" line.toLower) = false := by
      simpa using h
    simp [hf]

theorem addBurgundy_eq_nil {line : String} {bins : List String} :
    addBurgundy line bins = [] ↔
      bins = [] ∧ (pyIn "burgundy" line.toLower || pyIn "brown" line.toLower) = false := by
  unfold addBurgundy
  split_ifs with h
  · simp [setAdd_ne_nil, h]
  · have hf : (pyIn "burgundy" line.toLower || pyIn "brown" line.toLower) = false := by
      simpa using h
    simp [hf]

theorem addBinsFromLine_eq_nil {bins : List String} {line : String} :
    addBinsFromLine bins line = [] ↔
      bins = []
      ∧ (pyIn "black" line.toLower || pyIn "green" line.toLower) = false
      ∧ pyIn "blue" line.toLower = false
      ∧ (pyIn "grey" line.toLower || pyIn "gray" line.toLower) = false
      ∧ (pyIn "burgundy" line.toLower || pyIn "brown" line.toLower) = false := by
  unfold addBinsFromLine
  rw [addBurgundy_eq_nil, addGrey_eq_nil, addBlue_eq_nil, addBlack_eq_nil]
  tauto

theorem mem_foldl_addBins (window : List String) (acc : List String) (y : String) :
    y ∈ window.foldl addBinsFromLine acc ↔
      y ∈ acc ∨ ∃ l ∈ window,
        (y = "black" ∧ (pyIn "black" l.toLower || pyIn "green" l.toLower) = true)
        ∨ (y = "blue" ∧ pyIn "blue" l.toLower = true)
        ∨ (y = "grey" ∧ (pyIn "grey" l.toLower || pyIn "gray" l.toLower) = true)
        ∨ (y = "burgundy" ∧ (pyIn "burgundy" l.toLower || pyIn "brown" l.toLower) = true) := by
  induction window generalizing acc with
  | nil => simp
  | cons line rest ih =>
      rw [List.foldl_cons, ih, mem_addBinsFromLine]
      constructor
      · rintro ((h | h) | ⟨l, hl, h⟩)
        · exact Or.inl h
        · exact Or.inr ⟨line, by simp, h⟩
        · exact Or.inr ⟨l, by simp [hl], h⟩
      · rintro (h | ⟨l, hl, h⟩)
        · exact Or.inl (Or.inl h)
        · rcases List.mem_cons.mp hl with rfl | hl
          · exact Or.inl (Or.inr h)
          · exact Or.inr ⟨l, hl, h⟩

theorem foldl_addBins_eq_nil (window : List String) (acc : List String) :
    window.foldl addBinsFromLine acc = [] ↔
      acc = [] ∧ ∀ l ∈ window,
        (pyIn "black" l.toLower || pyIn "green" l.toLower) = false
        ∧ pyIn "blue" l.toLower = false
        ∧ (pyIn "grey" l.toLower || pyIn "gray" l.toLower) = false
        ∧ (pyIn "burgundy" l.toLower || pyIn "brown" l.toLower) = false := by
  induction window generalizing acc with
  | nil => simp
  | cons line rest ih =>
      rw [List.foldl_cons, ih, addBinsFromLine_eq_nil]
      constructor
      · rintro ⟨⟨hacc, h1, h2, h3, h4⟩, hrest⟩
        refine ⟨hacc, ?_⟩
        intro l hl
        rcases List.mem_cons.mp hl with rfl | hl
        · exact ⟨h1, h2, h3, h4⟩
        · exact hrest l hl
      · rintro ⟨hacc, hall⟩
        obtain ⟨h1, h2, h3, h4⟩ := hall line (by simp)
        exact ⟨⟨hacc, h1, h2, h3, h4⟩, fun l hl => hall l (by simp [hl])⟩

theorem identifyBins_none_iff (lines : List String) (idx : Nat) :
    identifyBinsFromPdfLines lines idx = none ↔ binsAt lines idx = [] := by
  unfold identifyBinsFromPdfLines
  dsimp only
  split_ifs with h
  · simp [List.isEmpty_iff.mp h]
  · exact iff_of_false (by simp) (fun hnil => h (List.isEmpty_iff.mpr hnil))

/-- C8: classification of the text lines around a date is case-insensitive
substring matching: a line containing `black` or `green` contributes the
`black` tag, `blue` contributes `blue`, `grey`/`gray` contribute `grey`,
`burgundy`/`brown` contribute `burgundy`, and when no line in the examined
window matches any of these substrings the function returns `none`. -/
theorem c8_normalizer_contract (lines : List String) (idx : Nat) :
    (identifyBinsFromPdfLines lines idx = none ↔
      ∀ l ∈ pdfLineWindow lines idx,
        pyIn "black" l.toLower = false ∧ pyIn "green" l.toLower = false
        ∧ pyIn "blue" l.toLower = false
        ∧ pyIn "grey" l.toLower = false ∧ pyIn "gray" l.toLower = false
        ∧ pyIn "burgundy" l.toLower = false ∧ pyIn "brown" l.toLower = false)
    ∧ ("black" ∈ binsAt lines idx ↔
        ∃ l ∈ pdfLineWindow lines idx, pyIn "black" l.toLower = true ∨ pyIn "green" l.toLower = true)
    ∧ ("blue" ∈ binsAt lines idx ↔
        ∃ l ∈ pdfLineWindow lines idx, pyIn "blue" l.toLower = true)
    ∧ ("grey" ∈ binsAt lines idx ↔
        ∃ l ∈ pdfLineWindow lines idx, pyIn "grey" l.toLower = true ∨ pyIn "gray" l.toLower = true)
    ∧ ("burgundy" ∈ binsAt lines idx ↔
        ∃ l ∈ pdfLineWindow lines idx, pyIn "burgundy" l.toLower = true ∨ pyIn "brown" l.toLower = true) := by
  refine ⟨?_, ?_, ?_, ?_, ?_⟩
  · rw [identifyBins_none_iff]
    unfold binsAt
    rw [foldl_addBins_eq_nil]
    simp only [true_and, Bool.or_eq_false_iff]
    constructor
    · intro h l hl
      have := h l hl
      tauto
    · intro h l hl
      have := h l hl
      tauto
  · unfold binsAt
    rw [mem_foldl_addBins]
    simp
  · unfold binsAt
    rw [mem_foldl_addBins]
    simp
  · unfold binsAt
    rw [mem_foldl_addBins]
    simp
  · unfold binsAt
    rw [mem_foldl_addBins]
    simp

/-! ### Helper lemmas about cycle detection, the pattern, and the event order -/

theorem classifyCycleRun_lt (l : List String) : classifyCycleRun l < 4 := by
  unfold classifyCycleRun
  dsimp only
  split_ifs <;> omega

theorem determine_ok_lt {cw : Int} {sched : List (Int × String)} {n : Nat}
    (h : determineCyclePosition cw sched = Except.ok n) : n < 4 := by
  unfold determineCyclePosition at h
  by_cases he : sched.isEmpty
  · rw [if_pos he] at h
    exact absurd h (by simp)
  · rw [if_neg he] at h
    dsimp only at h
    split at h
    · exact absurd h (by simp)
    · injection h with h'
      exact h' ▸ classifyCycleRun_lt _

theorem pattern_length {p : Nat} (hp : p < 4) : (patternFromCyclePosition p).length = 4 := by
  interval_cases p <;> rfl

theorem mem_base_of_mem_pattern {p : Nat} {wl : List String}
    (h : wl ∈ patternFromCyclePosition p) : wl ∈ basePattern := by
  unfold patternFromCyclePosition at h
  rcases List.mem_append.mp h with h | h
  · exact List.mem_of_mem_drop h
  · exact List.mem_of_mem_take h

theorem pattern_perm {p : Nat} (hp : p < 4) :
    (patternFromCyclePosition p).Perm basePattern := by
  interval_cases p <;> decide

theorem pattern_getD_base {p m : Nat} (hp : p < 4) (hm : m < 4) :
    (patternFromCyclePosition p).getD m [] = basePattern.getD ((p + m) % 4) [] := by
  interval_cases p <;> interval_cases m <;> rfl

theorem basePattern_sorted :
    ∀ wl ∈ basePattern, List.Pairwise (fun a b => keyStr a ≤ keyStr b) wl := by
  decide

theorem basePattern_len : ∀ wl ∈ basePattern, wl.length = 1 ∨ wl.length = 2 := by
  decide

theorem basePattern_ne_nil : ∀ wl ∈ basePattern, wl ≠ [] := by
  decide

theorem pattern_sorted (p : Nat) :
    ∀ wl ∈ patternFromCyclePosition p, List.Pairwise (fun a b => keyStr a ≤ keyStr b) wl :=
  fun wl h => basePattern_sorted wl (mem_base_of_mem_pattern h)

theorem collLe_trans :
    ∀ a b c : Collection, collLe a b = true → collLe b c = true → collLe a c = true := by
  intro a b c hab hbc
  simp only [collLe, Bool.or_eq_true, Bool.and_eq_true, decide_eq_true_eq] at *
  omega

theorem collLe_total : ∀ a b : Collection, (collLe a b || collLe b a) = true := by
  intro a b
  simp only [collLe, Bool.or_eq_true, Bool.and_eq_true, decide_eq_true_eq]
  omega

theorem date_of_mem_weekEvents {ccd : Int} {pat : List (List String)} {k : Nat} {e : Collection}
    (he : e ∈ weekEvents ccd pat k) : e.date = ccd + 7 * (k : Int) := by
  unfold weekEvents at he
  obtain ⟨b, _, rfl⟩ := List.mem_map.mp he
  rfl

theorem getD_mem_or (pat : List (List String)) (k : Nat) :
    pat.getD (k % pat.length) [] ∈ pat ∨ pat.getD (k % pat.length) [] = [] := by
  rcases Nat.eq_zero_or_pos pat.length with h0 | hpos
  · right
    rw [List.length_eq_zero.mp h0]
    rfl
  · left
    have hlt : k % pat.length < pat.length := Nat.mod_lt _ hpos
    rw [List.getD_eq_getElem _ _ hlt]
    exact List.getElem_mem hlt

theorem weekEvents_pairwise {ccd : Int} {pat : List (List String)} (k : Nat)
    (hpat : ∀ wl ∈ pat, List.Pairwise (fun a b => keyStr a ≤ keyStr b) wl) :
    List.Pairwise (fun a b => collLe a b = true) (weekEvents ccd pat k) := by
  unfold weekEvents
  rw [List.pairwise_map]
  rcases getD_mem_or pat k with hmem | hnil
  · refine (hpat _ hmem).imp ?_
    intro a b hab
    simp only [collLe, Bool.or_eq_true, Bool.and_eq_true, decide_eq_true_eq]
    right
    exact ⟨by trivial, hab⟩
  · rw [hnil]
    exact List.Pairwise.nil

theorem projectWeeks_pairwise (ccd : Int) (pat : List (List String))
    (hpat : ∀ wl ∈ pat, List.Pairwise (fun a b => keyStr a ≤ keyStr b) wl) :
    List.Pairwise (fun a b => collLe a b = true) (projectWeeks ccd pat) := by
  unfold projectWeeks
  rw [List.pairwise_flatMap]
  constructor
  · intro k _
    exact weekEvents_pairwise k hpat
  · refine (List.pairwise_lt_range 52).imp ?_
    intro k j hkj x hx y hy
    have hdx := date_of_mem_weekEvents hx
    have hdy := date_of_mem_weekEvents hy
    simp only [collLe, Bool.or_eq_true, Bool.and_eq_true, decide_eq_true_eq]
    left
    rw [hdx, hdy]
    have hc : (k : Int) < (j : Int) := by exact_mod_cast hkj
    omega

theorem sort_projectWeeks (ccd : Int) (pat : List (List String))
    (hpat : ∀ wl ∈ pat, List.Pairwise (fun a b => keyStr a ≤ keyStr b) wl) :
    sortCollections (projectWeeks ccd pat) = projectWeeks ccd pat :=
  List.mergeSort_of_sorted (projectWeeks_pairwise ccd pat hpat)

theorem fetchCore_ok_elim {snap : PageSnapshot} {sched : List (Int × String)}
    {evs : List Collection} (h : fetchCore snap sched = Except.ok evs) :
    ∃ cdn pos, dayMap snap.collectionDay = some cdn
      ∧ determineCyclePosition snap.weekStart sched = Except.ok pos
      ∧ pos < 4
      ∧ evs = projectWeeks (snap.weekStart + (cdn - pyWeekday snap.weekStart) % 7)
          (patternFromCyclePosition pos) := by
  unfold fetchCore at h
  dsimp only at h
  split at h
  · exact absurd h (by simp)
  · next cdn hd =>
      split at h
      · exact absurd h (by simp)
      · next pos hdet =>
          injection h with h'
          refine ⟨cdn, pos, hd, hdet, determine_ok_lt hdet, ?_⟩
          rw [← h', sort_projectWeeks _ _ (pattern_sorted pos)]

theorem flatMap_range_eq_of_single {α : Type} (g : Nat → List α) :
    ∀ (n k : Nat), k < n → (∀ j, j < n → j ≠ k → g j = []) →
      (List.range n).flatMap g = g k := by
  intro n
  induction n with
  | zero =>
      intro k hk _
      exact absurd hk (by omega)
  | succ n ih =>
      intro k hk hj
      rw [List.range_succ, List.flatMap_append]
      by_cases hkn : k = n
      · have h1 : (List.range n).flatMap g = [] := by
          rw [List.flatMap_eq_nil_iff]
          intro j hjmem
          have hjn : j < n := List.mem_range.mp hjmem
          exact hj j (by omega) (by omega)
        rw [h1, hkn]
        simp
      · have h2 : g n = [] := hj n (by omega) (fun hnk => hkn hnk.symm)
        rw [ih k (by omega) (fun j hjn hjk => hj j (by omega) hjk)]
        simp [h2]

theorem filter_projectWeeks (ccd : Int) (pat : List (List String)) (k : Nat) (hk : k < 52) :
    (projectWeeks ccd pat).filter (fun e => decide (e.date = ccd + 7 * (k : Int)))
      = weekEvents ccd pat k := by
  unfold projectWeeks
  rw [List.filter_flatMap]
  rw [flatMap_range_eq_of_single
      (fun j => (weekEvents ccd pat j).filter (fun e => decide (e.date = ccd + 7 * (k : Int))))
      52 k hk ?side]
  case side =>
    intro j hj hjk
    rw [List.filter_eq_nil_iff]
    intro e he
    have hd := date_of_mem_weekEvents he
    simp only [decide_eq_true_eq]
    rw [hd]
    intro hc
    have : (j : Int) = (k : Int) := by omega
    exact hjk (by exact_mod_cast this)
  rw [List.filter_eq_self]
  intro e he
  have hd := date_of_mem_weekEvents he
  simp [hd]

theorem weekEvents_map_t (ccd : Int) (pat : List (List String)) (k : Nat) :
    (weekEvents ccd pat k).map Collection.t = pat.getD (k % pat.length) [] := by
  unfold weekEvents
  rw [List.map_map]
  exact List.map_id _

theorem length_weekEvents (ccd : Int) (pat : List (List String)) (k : Nat) :
    (weekEvents ccd pat k).length = (pat.getD (k % pat.length) []).length := by
  unfold weekEvents
  exact List.length_map _ _

theorem length_projectWeeks (ccd : Int) (pat : List (List String)) :
    (projectWeeks ccd pat).length
      = ((List.range 52).map (fun k => (pat.getD (k % pat.length) []).length)).sum := by
  unfold projectWeeks
  rw [List.length_flatMap]
  congr 1
  apply List.map_congr_left
  intro k _
  exact length_weekEvents ccd pat k

theorem length_projectWeeks_pattern (ccd : Int) {p : Nat} (hp : p < 4) :
    (projectWeeks ccd (patternFromCyclePosition p)).length = 78 := by
  rw [length_projectWeeks]
  interval_cases p <;> rfl

theorem mem_projectWeeks_elim {ccd : Int} {pat : List (List String)} {e : Collection}
    (he : e ∈ projectWeeks ccd pat) :
    ∃ k : Nat, k < 52 ∧ e.date = ccd + 7 * (k : Int) := by
  unfold projectWeeks at he
  obtain ⟨k, hk, hek⟩ := List.mem_flatMap.mp he
  exact ⟨k, List.mem_range.mp hk, date_of_mem_weekEvents hek⟩

theorem dates_toFinset (ccd : Int) (pat : List (List String))
    (hne : ∀ k, k < 52 → pat.getD (k % pat.length) [] ≠ []) :
    ((projectWeeks ccd pat).map Collection.date).toFinset
      = (Finset.range 52).image (fun k : Nat => ccd + 7 * (k : Int)) := by
  ext x
  simp only [List.mem_toFinset, List.mem_map, Finset.mem_image, Finset.mem_range]
  constructor
  · rintro ⟨e, he, rfl⟩
    obtain ⟨k, hk, hd⟩ := mem_projectWeeks_elim he
    exact ⟨k, hk, hd.symm⟩
  · rintro ⟨k, hk, rfl⟩
    obtain ⟨b, hb⟩ := List.exists_mem_of_ne_nil _ (hne k hk)
    refine ⟨{ date := ccd + 7 * (k : Int), t := b,
              icon := (iconMap (pyFirstWord b)).getD "mdi:trash-can" }, ?_, rfl⟩
    unfold projectWeeks
    refine List.mem_flatMap.mpr ⟨k, List.mem_range.mpr hk, ?_⟩
    unfold weekEvents
    exact List.mem_map.mpr ⟨b, hb, rfl⟩

theorem dates_card (ccd : Int) (pat : List (List String))
    (hne : ∀ k, k < 52 → pat.getD (k % pat.length) [] ≠ []) :
    ((projectWeeks ccd pat).map Collection.date).toFinset.card = 52 := by
  have hinj : Function.Injective (fun k : Nat => ccd + 7 * (k : Int)) := by
    intro a b hab
    simp only at hab
    omega
  rw [dates_toFinset ccd pat hne, Finset.card_image_of_injective _ hinj, Finset.card_range]

theorem count_date_projectWeeks (ccd : Int) (pat : List (List String)) (k : Nat) (hk : k < 52) :
    (projectWeeks ccd pat).countP (fun e => decide (e.date = ccd + 7 * (k : Int)))
      = (pat.getD (k % pat.length) []).length := by
  rw [List.countP_eq_length_filter, filter_projectWeeks ccd pat k hk, length_weekEvents]

theorem pattern_getD_mem {p : Nat} (hp : p < 4) (k : Nat) :
    (patternFromCyclePosition p).getD (k % 4) [] ∈ basePattern := by
  have hl := pattern_length hp
  have hlt : k % 4 < (patternFromCyclePosition p).length := by omega
  rw [List.getD_eq_getElem _ _ hlt]
  exact mem_base_of_mem_pattern (List.getElem_mem hlt)

theorem fetchCore_snap0_eq : fetchCore snap0 sched0 = Except.ok evs0 := by
  have hs : sortCollections evs0 = evs0 :=
    sort_projectWeeks 12 (patternFromCyclePosition 0) (pattern_sorted 0)
  calc fetchCore snap0 sched0 = Except.ok (sortCollections evs0) := rfl
    _ = Except.ok evs0 := by rw [hs]

/-! ### Claim theorems -/

/-- C9: when the parsed historical schedule is empty, cycle-position
detection fails with the empty-document error for every current week,
before any anchor search; that error is distinct from the
anchor-not-found error raised later in the function. -/
theorem c9_empty_document (cw : Int) :
    determineCyclePosition cw [] = Except.error FetchError.emptyHistoricalDocument
    ∧ FetchError.emptyHistoricalDocument ≠ FetchError.anchorNotFound :=
  ⟨rfl, by decide⟩

/-- C3: for a non-empty parsed historical schedule with no dated entry in
the window from 60 days before to 180 days after the current week start,
cycle-position detection fails with the anchor-not-found error, and
`fetch` for any snapshot of that week produces no collection events. -/
theorem c3_anchor_not_found (cw : Int) (sched : List (Int × String))
    (hne : sched ≠ [])
    (hout : ∀ p ∈ sched, p.1 < cw - 60 ∨ cw + 180 < p.1) :
    determineCyclePosition cw sched = Except.error FetchError.anchorNotFound
    ∧ ∀ snap : PageSnapshot, snap.weekStart = cw →
        ∀ evs, fetchCore snap sched ≠ Except.ok evs := by
  have hdet : determineCyclePosition cw sched = Except.error FetchError.anchorNotFound := by
    unfold determineCyclePosition
    rw [if_neg (by simp [List.isEmpty_iff, hne])]
    dsimp only
    have hfilter : List.filter (fun d => decide (cw - 60 ≤ d) && decide (d ≤ cw + 180))
        (sched.map Prod.fst) = [] := by
      rw [List.filter_eq_nil_iff]
      intro d hd
      obtain ⟨pr, hpr, rfl⟩ := List.mem_map.mp hd
      have hw := hout pr hpr
      simp only [Bool.and_eq_true, decide_eq_true_eq]
      omega
    rw [hfilter]
    rfl
  refine ⟨hdet, ?_⟩
  intro snap hws evs h
  obtain ⟨cdn, pos, _, hdet2, _, _⟩ := fetchCore_ok_elim h
  rw [hws, hdet] at hdet2
  exact absurd hdet2 (by simp)

theorem c3_witness :
    determineCyclePosition 1000 c3Sched = Except.error FetchError.anchorNotFound
    ∧ fetchCore c3Snap c3Sched ≠ Except.ok [] := by
  have H := c3_anchor_not_found 1000 c3Sched (by decide) (by decide)
  exact ⟨H.1, H.2 c3Snap rfl []⟩

/-- C5: two runs whose page snapshots agree on the week start date and the
weekday table but differ arbitrarily in the set of bins listed as collected
this week produce identical results from the fetch pipeline. -/
theorem c5_noninterference (s1 s2 : PageSnapshot) (sched : List (Int × String))
    (hw : s1.weekStart = s2.weekStart) (hd : s1.collectionDay = s2.collectionDay) :
    fetchCore s1 sched = fetchCore s2 sched := by
  obtain ⟨w1, b1, c1⟩ := s1
  obtain ⟨w2, b2, c2⟩ := s2
  dsimp only at hw hd
  subst hw
  subst hd
  rfl

theorem c5_witness : fetchCore snap0 sched0 = fetchCore snap0b sched0 :=
  c5_noninterference snap0 snap0b sched0 rfl rfl

/-- C10: every cycle position returned by detection is in `{0, 1, 2, 3}`,
and rotating the base template by such an index yields a template of
length 4 that is a permutation (equal multiset) of the base template. -/
theorem c10_phase_invariant (cw : Int) (sched : List (Int × String)) (n : Nat)
    (h : determineCyclePosition cw sched = Except.ok n) :
    n < 4 ∧ (patternFromCyclePosition n).length = 4
    ∧ (patternFromCyclePosition n).Perm basePattern
    ∧ ((patternFromCyclePosition n : Multiset (List String))
        = (basePattern : Multiset (List String))) := by
  have hn := determine_ok_lt h
  exact ⟨hn, pattern_length hn, pattern_perm hn, Multiset.coe_eq_coe.mpr (pattern_perm hn)⟩

theorem c10_witness :
    determineCyclePosition 8 sched0 = Except.ok 0
    ∧ (0 : Nat) < 4 ∧ (patternFromCyclePosition 0).length = 4 := by
  have h : determineCyclePosition 8 sched0 = Except.ok 0 := by rfl
  have H := c10_phase_invariant 8 sched0 0 h
  exact ⟨h, H.1, H.2.1⟩

/-- C2 counterexample: constructing the source without a historical
document URL does not operate — it fails at construction. -/
theorem c2_counterexample :
    ¬ ∃ cfg, sourceInit "574605" "clincarthill_road_rutherglen" none = Except.ok cfg := by
  rintro ⟨cfg, hc⟩
  rw [show sourceInit "574605" "clincarthill_road_rutherglen" none
        = Except.error pdfUrlRequiredMessage from rfl] at hc
  exact Except.noConfusion hc

/-- C2 (amended): supplying no `pdf_url` (or an empty one) is rejected:
construction fails with the error stating that `pdf_url` is required —
the historical document is mandatory, not an optional collaborator. -/
theorem c2_pdf_url_required (recordId streetName : String) (pdfUrl : Option String)
    (h : pdfUrl = none ∨ pdfUrl = some "") :
    sourceInit recordId streetName pdfUrl = Except.error pdfUrlRequiredMessage := by
  rcases h with rfl | rfl <;> rfl

theorem c2_witness :
    sourceInit "574605" "clincarthill_road_rutherglen" (some "")
      = Except.error pdfUrlRequiredMessage :=
  c2_pdf_url_required "574605" "clincarthill_road_rutherglen" (some "") (Or.inr rfl)

/-- C1: evaluation at the failing input.  The anchor week read from the
historical schedule is the blue+burgundy class followed by black, detection
returns position 2, and the rotated template's phase 0 is the black bin
list with week 1 the blue+burgundy list — not the anchor's own bin list at
phase 0 (position 3 is the rotation whose phase 0 is blue+burgundy). -/
theorem c1_rotation_roundtrip_fails :
    lookupSched c1Sched 1000 = some "blue+burgundy"
    ∧ determineCyclePosition 1000 c1Sched = Except.ok 2
    ∧ (patternFromCyclePosition 2).getD 0 [] = blackBins
    ∧ (patternFromCyclePosition 2).getD 1 [] = blueBurgundyBins
    ∧ (patternFromCyclePosition 3).getD 0 [] = blueBurgundyBins
    ∧ (patternFromCyclePosition 3).getD 1 [] = blackBins
    ∧ blackBins ≠ blueBurgundyBins := by
  refine ⟨rfl, by rfl, rfl, rfl, rfl, rfl, by decide⟩

/-- C4: for every week offset `k < 52`, the events `fetch` emits for that
week are dated `current_week_start + ((collection_day - weekday(start)) mod 7)
days + 7·k` days, and the bin types on that date are exactly the rotated
template's entry at `k mod 4`, which equals the base template's entry at
`(position + k) mod 4`; moreover every emitted event is dated on one of
these 52 collection dates. -/
theorem c4_projector_arithmetic (snap : PageSnapshot) (sched : List (Int × String))
    (cdn : Int) (pos : Nat) (evs : List Collection) (k : Nat)
    (hday : dayMap snap.collectionDay = some cdn)
    (hdet : determineCyclePosition snap.weekStart sched = Except.ok pos)
    (hok : fetchCore snap sched = Except.ok evs)
    (hk : k < 52) :
    (evs.filter (fun e => decide (e.date
        = snap.weekStart + (cdn - pyWeekday snap.weekStart) % 7 + 7 * (k : Int)))).map Collection.t
      = (patternFromCyclePosition pos).getD (k % 4) []
    ∧ (patternFromCyclePosition pos).getD (k % 4) [] = basePattern.getD ((pos + k) % 4) []
    ∧ ∀ e ∈ evs, ∃ j : Nat, j < 52
        ∧ e.date = snap.weekStart + (cdn - pyWeekday snap.weekStart) % 7 + 7 * (j : Int) := by
  obtain ⟨cdn2, pos2, hday2, hdet2, hlt, hevs⟩ := fetchCore_ok_elim hok
  rw [hday] at hday2
  rw [hdet] at hdet2
  injection hday2 with hc
  injection hdet2 with hp
  subst hc
  subst hp
  subst hevs
  refine ⟨?_, ?_, ?_⟩
  · rw [filter_projectWeeks _ _ k hk, weekEvents_map_t, pattern_length hlt]
  · have h4 : k % 4 < 4 := by omega
    rw [pattern_getD_base hlt h4]
    congr 1
    omega
  · intro e he
    exact mem_projectWeeks_elim he

theorem c4_witness :
    ((evs0.filter (fun e => decide (e.date
        = snap0.weekStart + (4 - pyWeekday snap0.weekStart) % 7 + 7 * ((1 : Nat) : Int)))).map
          Collection.t
      = (patternFromCyclePosition 0).getD (1 % 4) [])
    ∧ (patternFromCyclePosition 0).getD (1 % 4) [] = basePattern.getD ((0 + 1) % 4) [] := by
  have H := c4_projector_arithmetic snap0 sched0 4 0 evs0 1 rfl (by rfl) fetchCore_snap0_eq
    (by omega)
  exact ⟨H.1, H.2.1⟩

/-- C6: the list `fetch` returns is totally ordered by event date then by
the fixed category priority (`Blue` 1, `Light` 2, `Burgundy` 3, `Black` and
`Green` 4, anything unrecognized — such as the literal first word
`Black/Green` of the black bin label — 99); sorting it again returns the
same sequence, the comparison is total, and the sort is stable (any
already-ordered sublist survives sorting). -/
theorem c6_ranking (snap : PageSnapshot) (sched : List (Int × String)) (evs : List Collection)
    (hok : fetchCore snap sched = Except.ok evs) :
    List.Pairwise (fun a b => collLe a b = true) evs
    ∧ sortCollections evs = evs
    ∧ (∀ a b : Collection, collLe a b = true ∨ collLe b a = true)
    ∧ (∀ l c : List Collection, List.Pairwise (fun a b => collLe a b = true) c →
        c.Sublist l → c.Sublist (sortCollections l))
    ∧ sortOrderGet "Blue" = 1 ∧ sortOrderGet "Light" = 2 ∧ sortOrderGet "Burgundy" = 3
    ∧ sortOrderGet "Black" = 4 ∧ sortOrderGet "Green" = 4
    ∧ sortOrderGet "Black/Green" = 99 := by
  obtain ⟨cdn, pos, _, _, hlt, hevs⟩ := fetchCore_ok_elim hok
  subst hevs
  refine ⟨projectWeeks_pairwise _ _ (pattern_sorted pos),
    sort_projectWeeks _ _ (pattern_sorted pos), ?_, ?_, rfl, rfl, rfl, rfl, rfl, rfl⟩
  · intro a b
    simpa using collLe_total a b
  · intro l c hc hsub
    exact List.sublist_mergeSort collLe_trans collLe_total hc hsub

theorem c6_witness :
    List.Pairwise (fun a b => collLe a b = true) evs0 ∧ sortCollections evs0 = evs0 := by
  have H := c6_ranking snap0 sched0 evs0 fetchCore_snap0_eq
  exact ⟨H.1, H.2.1⟩

/-- C7: with the 52-week horizon and the period-4 template, `fetch`
produces events on exactly 52 distinct dates, each date carries one or two
bin categories, and the total event count (78) lies between 52 and 104. -/
theorem c7_scenario_d (snap : PageSnapshot) (sched : List (Int × String)) (evs : List Collection)
    (hok : fetchCore snap sched = Except.ok evs) :
    ((evs.map Collection.date).toFinset.card = 52)
    ∧ (∀ d ∈ evs.map Collection.date,
        evs.countP (fun e => decide (e.date = d)) = 1
        ∨ evs.countP (fun e => decide (e.date = d)) = 2)
    ∧ evs.length = 78 ∧ 52 ≤ evs.length ∧ evs.length ≤ 104 := by
  obtain ⟨cdn, pos, _, _, hlt, hevs⟩ := fetchCore_ok_elim hok
  subst hevs
  have hlen4 := pattern_length hlt
  have hne : ∀ k, k < 52 →
      (patternFromCyclePosition pos).getD (k % (patternFromCyclePosition pos).length) [] ≠ [] := by
    intro k _
    rw [hlen4]
    exact basePattern_ne_nil _ (pattern_getD_mem hlt k)
  have h78 := length_projectWeeks_pattern
    (snap.weekStart + (cdn - pyWeekday snap.weekStart) % 7) hlt
  refine ⟨dates_card _ _ hne, ?_, h78, by rw [h78]; omega, by rw [h78]; omega⟩
  intro d hd
  obtain ⟨e, he, rfl⟩ := List.mem_map.mp hd
  obtain ⟨k, hk, hdate⟩ := mem_projectWeeks_elim he
  rw [hdate, count_date_projectWeeks _ _ k hk, hlen4]
  exact basePattern_len _ (pattern_getD_mem hlt k)

theorem c7_witness :
    ((evs0.map Collection.date).toFinset.card = 52) ∧ evs0.length = 78 := by
  have H := c7_scenario_d snap0 sched0 evs0 fetchCore_snap0_eq
  exact ⟨H.1, H.2.2.1⟩
